import Mathlib

/-!
Verification development for the ChemBasePetko compound store.

This file gives a shallow embedding of the core of the repository:
the multi-format compound normalizer (`src/server/db/processData.ts`),
the in-memory and Supabase-backed storage adapters (`src/server/storage.ts`,
the `supabase.ts` variants), the Weaviate/AstraDB vector-search adapters
(`src/server/db/weaviate.ts`, `src/server/db/astradb.ts`), and the search
coordinators, together with theorems settling the specification claims.

JavaScript conventions carried into the embedding:
- machine floats are modelled as exact rationals (`ℚ`);
- `undefined`/`null` are modelled as `Option.none`;
- JS truthiness is modelled explicitly: the empty string and the number 0
  are falsy, every object and every array (including the empty array) is
  truthy;
- `x || null` / `x || undefined` coercions therefore map `some ""` and
  `some 0` to `none` and keep everything else.
-/

namespace ChemBase

/-- JS truthiness for an optional string: `undefined`, `null` and `""` are falsy. -/
def jsTruthyStr : Option String → Bool
  | none => false
  | some s => s != ""

/-- JS truthiness for an optional number: `undefined`, `null` and `0` are falsy. -/
def jsTruthyNum : Option ℚ → Bool
  | none => false
  | some q => q != 0

/-- JS truthiness for an optional integer (used for `cid` fields). -/
def jsTruthyInt : Option Int → Bool
  | none => false
  | some n => n != 0

/-- The JS coercion `x || null` on an optional string (`""` becomes `null`). -/
def jsOrNullStr (x : Option String) : Option String :=
  if jsTruthyStr x then x else none

/-- The JS coercion `x || null` on an optional number (`0` becomes `null`). -/
def jsOrNullNum (x : Option ℚ) : Option ℚ :=
  if jsTruthyNum x then x else none

/-- Whether the character list starting at the head begins with the pattern. -/
def startsWithChars : List Char → List Char → Bool
  | _, [] => true
  | [], _ :: _ => false
  | a :: as, b :: bs => a == b && startsWithChars as bs

/-- Substring occurrence on character lists (`String.prototype.includes`). -/
def sublistAt : List Char → List Char → Bool
  | l, pat =>
    if startsWithChars l pat then true
    else match l with
      | [] => false
      | _ :: t => sublistAt t pat

/-- `s.includes(pat)` from JS: `pat` occurs contiguously inside `s`. -/
def strIncludes (s pat : String) : Bool :=
  sublistAt s.toList pat.toList

/-- `s.toLowerCase()` restricted to the character-wise lowering Lean provides. -/
def strToLower (s : String) : String :=
  String.mk (s.toList.map Char.toLower)

/-- Ceiling division on naturals: `Math.ceil(a / b)` for positive `b`. -/
def natCeilDiv (a b : Nat) : Nat :=
  (a + b - 1) / b

/-- The default PubChem structure-image URL templated from the compound id
(`getDefaultImageUrl` in `src/server/storage.ts` and the literal template in
`src/server/db/processData.ts`). -/
def defaultImageUrl (cid : Int) : String :=
  "https://pubchem.ncbi.nlm.nih.gov/image/imagefly.cgi?cid=" ++ toString cid
    ++ "&width=300&height=300"

/-- A stored compound row: the `compounds` table of `src/shared/schema.ts`
(surrogate `id`, natural key `cid`, optional descriptive fields, the open
`properties` mapping modelled as a key-value list). -/
structure Compound where
  id : Int
  cid : Int
  name : String
  iupacName : Option String := none
  formula : Option String := none
  molecularWeight : Option ℚ := none
  synonyms : Option (List String) := none
  description : Option String := none
  chemicalClass : Option (List String) := none
  inchi : Option String := none
  inchiKey : Option String := none
  smiles : Option String := none
  properties : Option (List (String × String)) := none
  isProcessed : Bool := false
  imageUrl : Option String := none
deriving Repr, DecidableEq

/-- A compound in pre-insert form (`InsertCompound` of `src/shared/schema.ts`:
the table row without `id` and `isProcessed`), as produced by the normalizer. -/
structure InsertCompound where
  cid : Int
  name : String
  iupacName : Option String := none
  formula : Option String := none
  molecularWeight : Option ℚ := none
  synonyms : Option (List String) := none
  description : Option String := none
  chemicalClass : Option (List String) := none
  inchi : Option String := none
  inchiKey : Option String := none
  smiles : Option String := none
  imageUrl : Option String := none
  properties : Option (List (String × String)) := none
deriving Repr, DecidableEq

/-! ## Format normalizer (`src/server/db/processData.ts`) -/

/-- One entry of `compound.props` in the PC_Compounds format: a label under
`urn.label` and a typed value slot (`value.sval` string or `value.fval` float). -/
structure PCProp where
  label : Option String := none
  sval : Option String := none
  fval : Option ℚ := none
deriving Repr, DecidableEq

/-- One synonym group of the PC_Compounds format (`synGroup.synonym` is the
optional list of synonym strings; `none` models a missing or non-array field). -/
structure SynGroup where
  synonym : Option (List String) := none
deriving Repr, DecidableEq

/-- One record of the PC_Compounds collection. `cid` models the optional-chained
path `compound.id?.id?.cid`. -/
structure PCCompound where
  cid : Option Int := none
  props : Option (List PCProp) := none
  synonyms : Option (List SynGroup) := none
deriving Repr, DecidableEq

/-- One `Information` entry of the Record format: `strings` models the list of
`Value.StringWithMarkup[i].String` values (`none` when `Value` or
`StringWithMarkup` is missing). -/
structure RecInfo where
  strings : Option (List String) := none
deriving Repr, DecidableEq

/-- A leaf subsection of the Record format (under "Computed Descriptors"). -/
structure RecSubSection where
  tocHeading : Option String := none
  information : Option (List RecInfo) := none
deriving Repr, DecidableEq

/-- A depth-two section of the Record format (the entries gathered into
`infoSections` by `processRecordFormat`); `sectionList` models its `Section`
array of subsections. -/
structure RecSection2 where
  tocHeading : Option String := none
  information : Option (List RecInfo) := none
  sectionList : Option (List RecSubSection) := none
deriving Repr, DecidableEq

/-- A top-level section of the Record format: only its child `Section` array is
ever read by the code. -/
structure RecSection1 where
  sectionList : Option (List RecSection2) := none
deriving Repr, DecidableEq

/-- The `Record` object of the hierarchical report format. -/
structure RecordData where
  recordNumber : Option Int := none
  recordTitle : Option String := none
  sectionList : Option (List RecSection1) := none
deriving Repr, DecidableEq

/-- A parsed JSON input to `processCompoundData`: the two structured carriers
(`PC_Compounds` collection, `Record` tree) plus the direct/flat fields read by
`validateCompound`. A missing or badly-typed field is `none`. -/
structure RawInput where
  pcCompounds : Option (List PCCompound) := none
  record : Option RecordData := none
  cid : Option Int := none
  name : Option String := none
  iupacName : Option String := none
  formula : Option String := none
  molecularWeight : Option ℚ := none
  synonyms : Option (List String) := none
  description : Option String := none
  chemicalClass : Option (List String) := none
  inchi : Option String := none
  inchiKey : Option String := none
  smiles : Option String := none
  imageUrl : Option String := none
  properties : Option (List (String × String)) := none
deriving Repr, DecidableEq

/-- Folds digit characters into a natural number. -/
def digitsToNat (l : List Char) : Nat :=
  l.foldl (fun a c => a * 10 + (c.toNat - 48)) 0

/-- `parseFloat` restricted to plain decimal literals: an optional sign, then
digits with an optional fractional part, read as a prefix of the string
(trailing garbage ignored, as in JS); `none` models `NaN`. Exponents are not
modelled — no repository input uses them. -/
def parseDecimal (s : String) : Option ℚ :=
  let cs := s.toList
  let signed := match cs with
    | '-' :: t => (true, t)
    | '+' :: t => (false, t)
    | l => (false, l)
  let intPart := signed.2.takeWhile (fun c => c.isDigit)
  let rest := signed.2.dropWhile (fun c => c.isDigit)
  let fracPart := match rest with
    | '.' :: t => t.takeWhile (fun c => c.isDigit)
    | _ => []
  if intPart.isEmpty && fracPart.isEmpty then none
  else
    let v : ℚ := (digitsToNat intPart : ℚ) + (digitsToNat fracPart : ℚ) / ((10 : ℚ) ^ fracPart.length)
    some (if signed.1 then -v else v)

/-- The body of the `props` loop of `processPCCompound`: each labelled prop with
a truthy typed slot overwrites the matching canonical field. -/
def applyPCProp (r : InsertCompound) (p : PCProp) : InsertCompound :=
  let r := if p.label == some "IUPAC Name" && jsTruthyStr p.sval then
    { r with iupacName := p.sval } else r
  let r := if p.label == some "Molecular Formula" && jsTruthyStr p.sval then
    { r with formula := p.sval } else r
  let r := if p.label == some "Molecular Weight" && jsTruthyNum p.fval then
    { r with molecularWeight := p.fval } else r
  let r := if p.label == some "InChI" && jsTruthyStr p.sval then
    { r with inchi := p.sval } else r
  let r := if p.label == some "InChIKey" && jsTruthyStr p.sval then
    { r with inchiKey := p.sval } else r
  if p.label == some "SMILES" && jsTruthyStr p.sval then
    { r with smiles := p.sval } else r

/-- The body of the `synonyms` loop of `processPCCompound`: the first synonym of
the first non-empty group becomes the name (guarded by `!result.name`), and
`result.synonyms` is overwritten by every group that carries a list. -/
def applySynGroup (r : InsertCompound) (g : SynGroup) : InsertCompound :=
  match g.synonym with
  | none => r
  | some l =>
    let r := if decide (l.length > 0) && r.name == "" then { r with name := l.headD "" } else r
    { r with synonyms := some l }

/-- The formula-substring classification heuristic shared verbatim by
`processPCCompound` and `processRecordFormat`: organic plus O/N/S tags when the
formula contains both C and H, otherwise inorganic; empty for a falsy formula. -/
def deriveChemicalClasses (formula : Option String) : List String :=
  if jsTruthyStr formula then
    let f := formula.getD ""
    if strIncludes f "C" && strIncludes f "H" then
      ["Organic compounds"]
        ++ (if strIncludes f "O" then ["Oxygen-containing compounds"] else [])
        ++ (if strIncludes f "N" then ["Nitrogen-containing compounds"] else [])
        ++ (if strIncludes f "S" then ["Sulfur-containing compounds"] else [])
    else
      ["Inorganic compounds"]
  else []

/-- Assigns the derived classes when the derivation produced any
(`if (chemicalClasses.length > 0) result.chemicalClass = chemicalClasses`). -/
def finishClasses (r : InsertCompound) : InsertCompound :=
  let cs := deriveChemicalClasses r.formula
  if decide (cs.length > 0) then { r with chemicalClass := some cs } else r

/-- `processPCCompound` of `src/server/db/processData.ts`: normalizes the first
record of a PC_Compounds collection, failing when the cid is missing or zero. -/
def processPCCompound (c : PCCompound) : Except String InsertCompound :=
  let cid : Int := match c.cid with
    | some v => v
    | none => 0
  if cid == 0 then .error "Missing compound ID (CID)"
  else
    let r : InsertCompound :=
      { cid := cid, name := "", molecularWeight := some 0, properties := some [] }
    let r := match c.props with
      | some ps => ps.foldl applyPCProp r
      | none => r
    let r := match c.synonyms with
      | some gs => gs.foldl applySynGroup r
      | none => r
    let r := if r.name == "" then { r with name := "Compound " ++ toString cid } else r
    let r := { r with imageUrl := some (defaultImageUrl cid) }
    .ok (finishClasses r)

/-- Reads `Information[0].Value.StringWithMarkup[0].String` when every link of
that chain is present and non-empty, as the Record-format extractor does. -/
def firstInfoString (info : Option (List RecInfo)) : Option String :=
  match info with
  | some (i :: _) =>
    match i.strings with
    | some (s :: _) => some s
    | _ => none
  | _ => none

/-- One labelled assignment of the Record-format extractor: when the heading
matches and the first informational value is present, apply the field update. -/
def setFromInfo (heading : String) (upd : InsertCompound → String → InsertCompound)
    (tocHeading : Option String) (information : Option (List RecInfo))
    (r : InsertCompound) : InsertCompound :=
  if tocHeading == some heading then
    match firstInfoString information with
    | some v => upd r v
    | none => r
  else r

/-- The heading-to-field table of the "Computed Descriptors" subsection loop
of `processRecordFormat`, in source order; "Molecular Weight" is parsed and
only kept when parsing succeeds. -/
def subSectionFields : List (String × (InsertCompound → String → InsertCompound)) :=
  [("IUPAC Name", fun r v => { r with iupacName := some v }),
   ("InChI", fun r v => { r with inchi := some v }),
   ("InChIKey", fun r v => { r with inchiKey := some v }),
   ("SMILES", fun r v => { r with smiles := some v }),
   ("Molecular Formula", fun r v => { r with formula := some v }),
   ("Molecular Weight", fun r v =>
      match parseDecimal v with
      | some w => { r with molecularWeight := some w }
      | none => r)]

/-- The body of the "Computed Descriptors" subsection loop of
`processRecordFormat`: each recognized heading of `subSectionFields` assigns
the first informational value to its field, in source order. -/
def applySubSection (r : InsertCompound) (s : RecSubSection) : InsertCompound :=
  subSectionFields.foldl (fun r hf => setFromInfo hf.1 hf.2 s.tocHeading s.information r) r

/-- The body of the information-section loop of `processRecordFormat`:
"Record Description" yields the description, "Computed Descriptors" dispatches
to its subsections. -/
def applyInfoSection (r : InsertCompound) (s : RecSection2) : InsertCompound :=
  let r := setFromInfo "Record Description" (fun r v => { r with description := some v })
    s.tocHeading s.information r
  if s.tocHeading == some "Computed Descriptors" then
    match s.sectionList with
    | some subs => subs.foldl applySubSection r
    | none => r
  else r

/-- `processRecordFormat` of `src/server/db/processData.ts`: normalizes the
hierarchical report format, failing when `RecordNumber` is missing or zero. -/
def processRecordFormat (rec : RecordData) : Except String InsertCompound :=
  let cid : Int := match rec.recordNumber with
    | some v => v
    | none => 0
  if cid == 0 then .error "Missing compound ID (CID)"
  else
    let r : InsertCompound :=
      { cid := cid, name := "", molecularWeight := some 0, properties := some [] }
    let r := match rec.recordTitle with
      | some t => if t != "" then { r with name := t } else r
      | none => r
    let infoSections : List RecSection2 := match rec.sectionList with
      | some secs => secs.foldl (fun acc s1 => acc ++ (s1.sectionList.getD [])) []
      | none => []
    let r := infoSections.foldl applyInfoSection r
    let r := finishClasses r
    let r := { r with imageUrl := some (defaultImageUrl cid) }
    if r.name == "" then .ok { r with name := "Compound " ++ toString cid } else .ok r

/-- `validateCompound` of `src/server/db/processData.ts`: coerces a direct/flat
object, failing when `cid` is falsy, defaulting a falsy `name` to
`"Compound <cid>"`, mapping a falsy optional field to absent, and passing
`synonyms`/`chemicalClass`/`properties` through. -/
def validateCompound (data : RawInput) : Except String InsertCompound :=
  if ¬ jsTruthyInt data.cid then .error "Missing compound ID (CID)"
  else
    let cid := data.cid.getD 0
    let name := if jsTruthyStr data.name then data.name.getD "" else "Compound " ++ toString cid
    .ok {
      cid := cid
      name := name
      iupacName := jsOrNullStr data.iupacName
      formula := jsOrNullStr data.formula
      molecularWeight := jsOrNullNum data.molecularWeight
      synonyms := data.synonyms
      description := jsOrNullStr data.description
      chemicalClass := data.chemicalClass
      inchi := jsOrNullStr data.inchi
      inchiKey := jsOrNullStr data.inchiKey
      smiles := jsOrNullStr data.smiles
      imageUrl := match jsOrNullStr data.imageUrl with
        | some u => some u
        | none => some (defaultImageUrl cid)
      properties := some (data.properties.getD [])
    }

/-- `processCompoundData` of `src/server/db/processData.ts`: tries the
PC_Compounds shape (non-empty collection), then the Record shape, then the
direct shape (both `cid` and `name` truthy), and otherwise fails with the
unrecognized-format error. -/
def processCompoundData (data : RawInput) : Except String InsertCompound :=
  match data.pcCompounds with
  | some (c :: _) => processPCCompound c
  | _ =>
    match data.record with
    | some r => processRecordFormat r
    | none =>
      if jsTruthyInt data.cid && jsTruthyStr data.name then validateCompound data
      else .error "Unknown PubChem data format"

/-! ## Search data contract (`src/shared/schema.ts`) -/

/-- A parsed `SearchQuery`. The optional `molecularWeight`/`chemicalClass`
enums are modelled as plain strings where `""` is the falsy absent value, as
the storage code tests them by truthiness. -/
structure SearchQuery where
  query : String
  searchType : String := "semantic"
  molecularWeight : String := ""
  chemicalClass : String := ""
  sort : String := "relevance"
  page : Nat := 1
  limit : Nat := 10
deriving Repr, DecidableEq

/-- A `CompoundSearchResult`: the lightweight projection returned by search. -/
structure CompoundSearchResult where
  cid : Int
  name : String
  iupacName : Option String := none
  formula : Option String := none
  molecularWeight : Option ℚ := none
  chemicalClass : Option (List String) := none
  description : Option String := none
  similarity : Option ℚ := none
  imageUrl : Option String := none
deriving Repr, DecidableEq

/-- A `SearchResponse` as shaped by every search path. -/
structure SearchResponse where
  results : List CompoundSearchResult
  totalResults : Nat
  page : Nat
  totalPages : Nat
  query : String
deriving Repr, DecidableEq

/-! ## Primary store adapters -/

/-- `Map.set` of a JS `Map`: replace the value when the key exists, otherwise
append preserving insertion order. -/
def jsMapSet (m : List (Int × Compound)) (k : Int) (v : Compound) : List (Int × Compound) :=
  if m.any (fun p => p.1 == k) then m.map (fun p => if p.1 == k then (k, v) else p)
  else m ++ [(k, v)]

/-- The state of `MemStorage` (`src/server/storage.ts`): the `compounds` map
keyed by surrogate id, the `compoundsByCid` index keyed by cid, and the id
counter. Both maps are insertion-ordered key-value lists. -/
structure MemStorage where
  compounds : List (Int × Compound) := []
  compoundsByCid : List (Int × Compound) := []
  currentCompoundId : Int := 1
deriving Repr, DecidableEq

/-- `MemStorage.createCompound`: mints a fresh id, coerces falsy optional
fields to `null`, and stores the row in both maps. It performs no existence
check on `cid`. -/
def memCreateCompound (st : MemStorage) (ic : InsertCompound) : Compound × MemStorage :=
  let id := st.currentCompoundId
  let c : Compound :=
    { id := id
      cid := ic.cid
      name := ic.name
      isProcessed := false
      iupacName := jsOrNullStr ic.iupacName
      formula := jsOrNullStr ic.formula
      molecularWeight := jsOrNullNum ic.molecularWeight
      synonyms := ic.synonyms
      description := jsOrNullStr ic.description
      chemicalClass := ic.chemicalClass
      inchi := jsOrNullStr ic.inchi
      inchiKey := jsOrNullStr ic.inchiKey
      smiles := jsOrNullStr ic.smiles
      properties := ic.properties
      imageUrl := jsOrNullStr ic.imageUrl }
  (c, { compounds := jsMapSet st.compounds id c
        compoundsByCid := jsMapSet st.compoundsByCid ic.cid c
        currentCompoundId := st.currentCompoundId + 1 })

/-- The number of rows of the primary `compounds` map holding the given cid. -/
def memRowsWithCid (st : MemStorage) (cid : Int) : Nat :=
  (st.compounds.filter (fun p => p.2.cid == cid)).length

/-- `filterByMolecularWeight`, whose body is token-identical in
`MemStorage`, `SupabaseStorage` (`src/server/storage.ts`) and the
`src/unnamed/part_008` storage variant: a falsy weight (absent or `0`) is
rejected before the bucket is inspected; unrecognized bucket strings pass. -/
def filterByMolecularWeight (c : Compound) (filter : String) : Bool :=
  if ¬ jsTruthyNum c.molecularWeight then false
  else
    let w := c.molecularWeight.getD 0
    if filter == "lt_100" then decide (w < 100)
    else if filter == "100-200" then decide (100 ≤ w ∧ w ≤ 200)
    else if filter == "200-500" then decide (200 < w ∧ w ≤ 500)
    else if filter == "gt_500" then decide (500 < w)
    else true

/-- The weight interval used by the Supabase keyword search
(`searchCompounds` in the first `supabase.ts` variant of
`src/unnamed/part_007`) and by the AstraDB and Pinecone semantic searches
(`src/server/db/astradb.ts`, the Pinecone variant in
`src/server/db/weaviate.ts`): every bucket is a closed `[lo, hi]` range
applied as `gte`/`lte` predicates. -/
def rangeWeightBounds (filter : String) : ℚ × ℚ :=
  if filter == "lt_100" then (0, 100)
  else if filter == "100-200" then (100, 200)
  else if filter == "200-500" then (200, 500)
  else if filter == "gt_500" then (500, 10000)
  else (0, 10000)

/-- Whether a weight passes the closed-range bucket filter of the
Supabase/AstraDB/Pinecone query builders. -/
def rangeWeightMatch (w : ℚ) (filter : String) : Bool :=
  decide ((rangeWeightBounds filter).1 ≤ w ∧ w ≤ (rangeWeightBounds filter).2)

/-- Keyword match of the live `searchCompounds` (both storage classes in
`src/server/storage.ts`): case-insensitive containment in the name, the
description, or any synonym. -/
def matchesKeyword (c : Compound) (q : String) : Bool :=
  strIncludes (strToLower c.name) (strToLower q)
  || (match c.description with
      | some d => strIncludes (strToLower d) (strToLower q)
      | none => false)
  || (match c.synonyms with
      | some l => l.any (fun s => strIncludes (strToLower s) (strToLower q))
      | none => false)

/-- The molecular-weight clause of the keyword filter: absent (`""`) or
`"all"` means no filtering, otherwise defer to `filterByMolecularWeight`. -/
def matchesMolWeight (c : Compound) (mw : String) : Bool :=
  mw == "" || mw == "all" || filterByMolecularWeight c mw

/-- The chemical-class clause of the keyword filter: absent or `"all"` means
no filtering, otherwise case-insensitive containment in some class label. -/
def matchesChemClass (c : Compound) (cls : String) : Bool :=
  cls == "" || cls == "all"
  || (match c.chemicalClass with
      | some l => l.any (fun x => strIncludes (strToLower x) (strToLower cls))
      | none => false)

/-- A stable insertion of `x` in front of the first element it precedes. -/
def insertLe {α : Type} (le : α → α → Bool) (x : α) : List α → List α
  | [] => [x]
  | y :: ys => if le x y then x :: y :: ys else y :: insertLe le x ys

/-- A stable comparison sort, modelling the (ES2019-stable) `Array.sort`. -/
def stableSort {α : Type} (le : α → α → Bool) : List α → List α
  | [] => []
  | x :: xs => insertLe le x (stableSort le xs)

/-- The molecular-weight comparator of `sortCompounds` in
`src/server/storage.ts` read as a not-after relation: a falsy weight sorts
last (`if (!a.molecularWeight) return 1`), otherwise ascending by weight. -/
def mwLe (a b : Compound) : Bool :=
  if ¬ jsTruthyNum a.molecularWeight then false
  else if ¬ jsTruthyNum b.molecularWeight then true
  else decide (a.molecularWeight.getD 0 ≤ b.molecularWeight.getD 0)

/-- Code-point comparison of character lists, modelling `localeCompare`. -/
def charListLe : List Char → List Char → Bool
  | [], _ => true
  | _ :: _, [] => false
  | a :: as, b :: bs => if a == b then charListLe as bs else decide (a < b)

/-- The name comparator of `sortCompounds` as a not-after relation. -/
def nameLe (a b : Compound) : Bool :=
  charListLe a.name.toList b.name.toList

/-- `sortCompounds` of `src/server/storage.ts`: sort by weight or name when
requested, otherwise keep the incoming order. -/
def sortCompounds (l : List Compound) (sortBy : String) : List Compound :=
  if sortBy == "molecular_weight" then stableSort mwLe l
  else if sortBy == "name" then stableSort nameLe l
  else l

/-- The row-to-result projection of the keyword search paths in
`src/server/storage.ts`: falsy optional fields become absent, a falsy image
URL falls back to the default template, and similarity is the constant 0. -/
def toResult (c : Compound) : CompoundSearchResult :=
  { cid := c.cid
    name := c.name
    iupacName := jsOrNullStr c.iupacName
    formula := jsOrNullStr c.formula
    molecularWeight := jsOrNullNum c.molecularWeight
    chemicalClass := c.chemicalClass
    description := jsOrNullStr c.description
    imageUrl := match jsOrNullStr c.imageUrl with
      | some u => some u
      | none => some (defaultImageUrl c.cid)
    similarity := some 0 }

/-- The shared keyword search pipeline of `MemStorage.searchCompounds` and
`SupabaseStorage.searchCompounds` (`src/server/storage.ts`): filter by
keyword, weight bucket and class, sort, count before paginating, slice the
requested page, and project the rows. -/
def keywordSearchCore (compounds : List Compound) (q : SearchQuery) : SearchResponse :=
  let filtered := compounds.filter (fun c =>
    matchesKeyword c q.query && matchesMolWeight c q.molecularWeight
      && matchesChemClass c q.chemicalClass)
  let sorted := sortCompounds filtered q.sort
  let totalResults := sorted.length
  let paginated := (sorted.drop ((q.page - 1) * q.limit)).take q.limit
  { results := paginated.map toResult
    totalResults := totalResults
    page := q.page
    totalPages := natCeilDiv totalResults q.limit
    query := q.query }

/-! ## Supabase table model

The `compounds` table as declared by `src/shared/schema.ts`
(`cid: integer("cid").notNull().unique()`) and
`scripts/supabase-setup.sql` (`cid INTEGER NOT NULL UNIQUE`): a serial
surrogate id and a unique constraint on `cid`, so an insert carrying an
already-present cid is rejected by the database. -/

/-- The relational table state: stored rows and the next serial id. -/
structure SupabaseTable where
  rows : List Compound := []
  nextId : Int := 1
deriving Repr, DecidableEq

/-- Whether no stored row carries the given cid. -/
def cidFree (t : SupabaseTable) (cid : Int) : Bool :=
  !(t.rows.any (fun r => r.cid == cid))

/-- The row built by the live `createCompound`/`batchInsertCompounds`
(second `supabase.ts` variant in `src/unnamed/part_007`): `synonyms` and
`chemicalClass` are coalesced to empty arrays, everything else stored as
given, `isProcessed` defaulting to false. -/
def rowOfInsert (id : Int) (ic : InsertCompound) : Compound :=
  { id := id
    cid := ic.cid
    name := ic.name
    iupacName := ic.iupacName
    formula := ic.formula
    molecularWeight := ic.molecularWeight
    synonyms := some (ic.synonyms.getD [])
    description := ic.description
    chemicalClass := some (ic.chemicalClass.getD [])
    inchi := ic.inchi
    inchiKey := ic.inchiKey
    smiles := ic.smiles
    properties := ic.properties
    isProcessed := false
    imageUrl := ic.imageUrl }

/-- The row stored by `addCompound` (first `supabase.ts` variant in
`src/unnamed/part_007`), which inserts the compound without coalescing. -/
def rowOfInsertRaw (id : Int) (ic : InsertCompound) : Compound :=
  { id := id
    cid := ic.cid
    name := ic.name
    iupacName := ic.iupacName
    formula := ic.formula
    molecularWeight := ic.molecularWeight
    synonyms := ic.synonyms
    description := ic.description
    chemicalClass := ic.chemicalClass
    inchi := ic.inchi
    inchiKey := ic.inchiKey
    smiles := ic.smiles
    properties := ic.properties
    isProcessed := false
    imageUrl := ic.imageUrl }

/-- `createCompound` of the live `supabase.ts` (`src/unnamed/part_007`,
second variant), called by `SupabaseStorage.createCompound`: inserts
unconditionally; a duplicate cid violates the table's unique constraint and
surfaces as a thrown error. -/
def supabaseCreateCompound (t : SupabaseTable) (ic : InsertCompound) :
    Except String (Compound × SupabaseTable) :=
  if cidFree t ic.cid then
    let row := rowOfInsert t.nextId ic
    .ok (row, { rows := t.rows ++ [row], nextId := t.nextId + 1 })
  else
    .error "Failed to create compound in Supabase: duplicate key value violates unique constraint"

/-- `addCompound` of the first `supabase.ts` variant in
`src/unnamed/part_007`: checks for an existing row with the cid first,
returning it unchanged when present, and inserts only otherwise. -/
def supabaseAddCompound (t : SupabaseTable) (ic : InsertCompound) :
    Except String (Compound × SupabaseTable) :=
  match t.rows.find? (fun r => r.cid == ic.cid) with
  | some existing => .ok (existing, t)
  | none =>
    let row := rowOfInsertRaw t.nextId ic
    .ok (row, { rows := t.rows ++ [row], nextId := t.nextId + 1 })

/-- Whether the cids of a batch are pairwise distinct. -/
def noDupCids : List InsertCompound → Bool
  | [] => true
  | c :: rest => !(rest.any (fun d => d.cid == c.cid)) && noDupCids rest

/-- Whether the cids of stored rows are pairwise distinct. -/
def rowsNoDupCids : List Compound → Bool
  | [] => true
  | r :: rest => !(rest.any (fun s => s.cid == r.cid)) && rowsNoDupCids rest

/-- Builds the rows of a batch insert with consecutive serial ids. -/
def buildRows (startId : Int) : List InsertCompound → List Compound
  | [] => []
  | c :: rest => rowOfInsert startId c :: buildRows (startId + 1) rest

/-- `batchInsertCompounds` of the live `supabase.ts`
(`src/unnamed/part_007` lines 950-969): one multi-row insert with no
deduplication of its own; the whole statement fails atomically when any row
violates the unique `cid` constraint (against the table or within the batch). -/
def supabaseBatchInsertCompounds (t : SupabaseTable) (cs : List InsertCompound) :
    Except String (Nat × SupabaseTable) :=
  if cs.all (fun c => cidFree t c.cid) && noDupCids cs then
    .ok (cs.length, { rows := t.rows ++ buildRows t.nextId cs, nextId := t.nextId + cs.length })
  else
    .error "Failed to batch insert compounds in Supabase: duplicate key value violates unique constraint"

/-! ## Vector search adapter and coordinators -/

/-- Name comparator on search results (`a.name.localeCompare(b.name)` read as
a not-after relation over code points). -/
def resNameLe (a b : CompoundSearchResult) : Bool :=
  charListLe a.name.toList b.name.toList

/-- Weight comparator on search results used by the Weaviate adapter's
optional re-sort (only applied when every result has a truthy weight). -/
def resMwLe (a b : CompoundSearchResult) : Bool :=
  if ¬ jsTruthyNum a.molecularWeight then false
  else if ¬ jsTruthyNum b.molecularWeight then true
  else decide (a.molecularWeight.getD 0 ≤ b.molecularWeight.getD 0)

/-- `semanticSearch` of `src/server/db/weaviate.ts`, successful path.
`ranked` is the backend's full similarity-ranked match list for the query;
the GraphQL call applies `withLimit`/`withOffset` server-side, so the code
only ever sees the current page and sets `totalResults` to that page's
length (its own comment notes "This is not accurate but Weaviate doesn't
return total count"). `totalPages` is then derived from the same number. -/
def weaviateSemanticSearch (ranked : List CompoundSearchResult) (query : String)
    (limit offset : Nat) (sortBy : String) : SearchResponse :=
  let compounds := (ranked.drop offset).take limit
  let totalResults := compounds.length
  let results :=
    if sortBy == "name" then stableSort resNameLe compounds
    else if sortBy == "molecular_weight" && compounds.all (fun r => jsTruthyNum r.molecularWeight)
      then stableSort resMwLe compounds
    else compounds
  { results := results
    totalResults := totalResults
    page := offset / limit + 1
    totalPages := natCeilDiv totalResults limit
    query := query }

/-- `SupabaseStorage.searchCompounds` of `src/server/storage.ts`.
`vecResult` is the outcome of the `weaviateClient.semanticSearch` call (which
rethrows on any failure). In semantic mode the adapter's response is returned
as-is and an adapter failure is re-wrapped and rethrown by the surrounding
catch — there is no keyword fallback. In keyword mode the first 1000 rows are
fetched and run through the in-memory filter pipeline. -/
def supabaseSearchCompounds (t : SupabaseTable)
    (vecResult : Except String SearchResponse) (q : SearchQuery) :
    Except String SearchResponse :=
  if q.searchType == "semantic" then
    match vecResult with
    | .ok r => .ok r
    | .error m => .error ("Cannot search compounds in database: " ++ m)
  else
    .ok (keywordSearchCore (t.rows.take 1000) q)

/-- Keyword match of the `src/unnamed/part_008` storage variant: containment
of the lowered query in name, formula or description. -/
def part008Matches (c : Compound) (q : String) : Bool :=
  strIncludes (strToLower c.name) (strToLower q)
  || (match c.formula with
      | some f => strIncludes (strToLower f) (strToLower q)
      | none => false)
  || (match c.description with
      | some d => strIncludes (strToLower d) (strToLower q)
      | none => false)

/-- `sortCompounds` of the `part_008` variant: its weight comparator coalesces
a missing weight to 0 (sorting unknown weights first, not last). -/
def part008MwLe (a b : Compound) : Bool :=
  decide ((a.molecularWeight.getD 0) ≤ (b.molecularWeight.getD 0))

/-- Compound sort of the `part_008` variant. -/
def part008SortCompounds (l : List Compound) (sortBy : String) : List Compound :=
  if sortBy == "molecular_weight" then stableSort part008MwLe l
  else if sortBy == "name" then stableSort nameLe l
  else l

/-- Weight comparator on results of the `part_008` variant (missing → 0). -/
def part008ResMwLe (a b : CompoundSearchResult) : Bool :=
  decide ((a.molecularWeight.getD 0) ≤ (b.molecularWeight.getD 0))

/-- Similarity-descending comparator of the `part_008` variant's relevance
re-sort of results. -/
def part008SimLe (a b : CompoundSearchResult) : Bool :=
  decide ((b.similarity.getD 0) ≤ (a.similarity.getD 0))

/-- Result re-sort of the `part_008` variant (applied a second time after the
row sort; relevance sorts by similarity descending). -/
def part008SortResults (l : List CompoundSearchResult) (sortBy : String) :
    List CompoundSearchResult :=
  if sortBy == "molecular_weight" then stableSort part008ResMwLe l
  else if sortBy == "name" then stableSort resNameLe l
  else stableSort part008SimLe l

/-- Row projection of the `part_008` variant: fields are copied under
`!== null` checks (so empty strings survive), similarity is 0, and a falsy
image URL falls back to the default template. -/
def part008ToResult (c : Compound) : CompoundSearchResult :=
  { cid := c.cid
    name := c.name
    iupacName := c.iupacName
    formula := c.formula
    molecularWeight := c.molecularWeight
    chemicalClass := c.chemicalClass
    description := c.description
    similarity := some 0
    imageUrl := match jsOrNullStr c.imageUrl with
      | some u => some u
      | none => some (defaultImageUrl c.cid) }

/-- The keyword branch of `MemStorage.searchCompounds` in
`src/unnamed/part_008`: conditional keyword/weight/class filters over the
in-memory rows, sort, paginate, project, re-sort the projected page, with
`totalResults` the filtered pre-pagination count. -/
def part008KeywordSearch (st : MemStorage) (q : SearchQuery) : SearchResponse :=
  let allCompounds := st.compounds.map (fun p => p.2)
  let f1 := if q.query != "" then allCompounds.filter (fun c => part008Matches c q.query)
    else allCompounds
  let f2 := if q.molecularWeight != "" && q.molecularWeight != "all" then
      f1.filter (fun c => filterByMolecularWeight c q.molecularWeight)
    else f1
  let f3 := if q.chemicalClass != "" && q.chemicalClass != "all" then
      f2.filter (fun c => match c.chemicalClass with
        | some l => l.any (fun x => x == q.chemicalClass)
        | none => false)
    else f2
  let sorted := part008SortCompounds f3 q.sort
  let paged := (sorted.drop ((q.page - 1) * q.limit)).take q.limit
  { results := part008SortResults (paged.map part008ToResult) q.sort
    totalResults := f3.length
    page := q.page
    totalPages := natCeilDiv f3.length q.limit
    query := q.query }

/-- `MemStorage.searchCompounds` of the `src/unnamed/part_008` storage
variant: in semantic mode the AstraDB adapter is tried first and any
adapter failure is caught, `searchType` is downgraded to `"keyword"` for
the request, and the in-memory keyword search answers instead. -/
def part008SearchCompounds (st : MemStorage)
    (vecResult : Except String SearchResponse) (q : SearchQuery) :
    Except String SearchResponse :=
  if q.searchType == "semantic" then
    match vecResult with
    | .ok r => .ok r
    | .error _ => .ok (part008KeywordSearch st { q with searchType := "keyword" })
  else
    .ok (part008KeywordSearch st q)

/-! ## Concrete fixtures used by the claim theorems and witnesses -/

/-- A minimal Aspirin-like pre-insert compound (cid 2244). -/
def aspirinIC : InsertCompound :=
  { cid := 2244, name := "Aspirin" }

/-- A table already holding the Aspirin row. -/
def tableWithAspirin : SupabaseTable :=
  { rows := [rowOfInsert 1 aspirinIC], nextId := 2 }

/-- A direct/flat glucose input carrying a formula but no explicit
`chemicalClass`. -/
def glucoseRaw : RawInput :=
  { cid := some 1, name := some "glucose", formula := some "C6H12O6" }

/-- A PC_Compounds record carrying two synonym groups. -/
def pcTwoGroups : PCCompound :=
  { cid := some 7, synonyms := some [{ synonym := some ["A", "B"] }, { synonym := some ["C", "D"] }] }

/-- 25 keyword-matching in-memory rows (every name contains "acid"). -/
def compounds25 : List Compound :=
  (List.range 25).map (fun i => { id := Int.ofNat i, cid := Int.ofNat i, name := "acid" ++ toString i })

/-- The same 25 rows as vector-store results ranked for the query "acid". -/
def ranked25 : List CompoundSearchResult :=
  (List.range 25).map (fun i => { cid := Int.ofNat i, name := "acid" ++ toString i })

/-- Page 3 of a keyword search for "acid" with the default limit 10. -/
def acidPage3 : SearchQuery :=
  { query := "acid", searchType := "keyword", page := 3, limit := 10 }

/-- The canonical record the direct-format glucose input normalizes to. -/
def glucoseNormalized : InsertCompound :=
  { cid := 1
    name := "glucose"
    formula := some "C6H12O6"
    imageUrl := some "https://pubchem.ncbi.nlm.nih.gov/image/imagefly.cgi?cid=1&width=300&height=300"
    properties := some [] }

/-- A PC_Compounds record whose only prop is the formula NaCl. -/
def pcNaCl : PCCompound :=
  { cid := some 11, props := some [{ label := some "Molecular Formula", sval := some "NaCl" }] }

/-- The canonical record `pcNaCl` normalizes to. -/
def pcNaClNormalized : InsertCompound :=
  { cid := 11
    name := "Compound 11"
    formula := some "NaCl"
    molecularWeight := some 0
    chemicalClass := some ["Inorganic compounds"]
    imageUrl := some "https://pubchem.ncbi.nlm.nih.gov/image/imagefly.cgi?cid=11&width=300&height=300"
    properties := some [] }

/-- The canonical record `pcTwoGroups` normalizes to: the name comes from the
first synonym group, the synonyms list from the last. -/
def pcTwoGroupsNormalized : InsertCompound :=
  { cid := 7
    name := "A"
    molecularWeight := some 0
    synonyms := some ["C", "D"]
    imageUrl := some "https://pubchem.ncbi.nlm.nih.gov/image/imagefly.cgi?cid=7&width=300&height=300"
    properties := some [] }

/-! ## Helper lemmas -/

lemma foldl_preserve {α β γ : Type} (g : α → γ) (f : α → β → α)
    (h : ∀ r x, g (f r x) = g r) : ∀ (l : List β) (r : α), g (l.foldl f r) = g r
  | [], _ => rfl
  | x :: xs, r => by rw [List.foldl_cons, foldl_preserve g f h xs (f r x), h]

lemma foldl_preserve_mem {α β γ : Type} (g : α → γ) (f : α → β → α) :
    ∀ (l : List β), (∀ x ∈ l, ∀ r, g (f r x) = g r) → ∀ r : α, g (l.foldl f r) = g r
  | [], _, _ => rfl
  | x :: xs, h, r => by
    rw [List.foldl_cons, foldl_preserve_mem g f xs (fun y hy => h y (List.mem_cons_of_mem x hy)),
      h x (List.mem_cons_self x xs)]

lemma setFromInfo_preserve {γ : Type} (g : InsertCompound → γ) (heading : String)
    (upd : InsertCompound → String → InsertCompound) (toc : Option String)
    (info : Option (List RecInfo)) (r : InsertCompound)
    (h : ∀ r v, g (upd r v) = g r) :
    g (setFromInfo heading upd toc info r) = g r := by
  unfold setFromInfo
  split_ifs
  · cases firstInfoString info
    · rfl
    · exact h r _
  · rfl

lemma applyPCProp_cid (r : InsertCompound) (p : PCProp) : (applyPCProp r p).cid = r.cid := by
  unfold applyPCProp; split_ifs <;> rfl

lemma applyPCProp_name (r : InsertCompound) (p : PCProp) : (applyPCProp r p).name = r.name := by
  unfold applyPCProp; split_ifs <;> rfl

lemma applyPCProp_synonyms (r : InsertCompound) (p : PCProp) :
    (applyPCProp r p).synonyms = r.synonyms := by
  unfold applyPCProp; split_ifs <;> rfl

lemma applyPCProp_chemicalClass (r : InsertCompound) (p : PCProp) :
    (applyPCProp r p).chemicalClass = r.chemicalClass := by
  unfold applyPCProp; split_ifs <;> rfl

lemma applySynGroup_cid (r : InsertCompound) (g : SynGroup) : (applySynGroup r g).cid = r.cid := by
  unfold applySynGroup
  rcases g.synonym with _ | l
  · rfl
  · simp only; split_ifs <;> rfl

lemma applySynGroup_chemicalClass (r : InsertCompound) (g : SynGroup) :
    (applySynGroup r g).chemicalClass = r.chemicalClass := by
  unfold applySynGroup
  rcases g.synonym with _ | l
  · rfl
  · simp only; split_ifs <;> rfl

lemma applySynGroup_formula (r : InsertCompound) (g : SynGroup) :
    (applySynGroup r g).formula = r.formula := by
  unfold applySynGroup
  rcases g.synonym with _ | l
  · rfl
  · simp only; split_ifs <;> rfl

lemma applySynGroup_name_ne (r : InsertCompound) (g : SynGroup) (h : r.name ≠ "") :
    (applySynGroup r g).name = r.name := by
  have hb : (r.name == "") = false := by simpa using h
  unfold applySynGroup
  rcases g.synonym with _ | l
  · rfl
  · simp [hb]

lemma applySynGroup_synonyms (r : InsertCompound) (g : SynGroup) :
    (applySynGroup r g).synonyms =
      (match g.synonym with
       | some l => some l
       | none => r.synonyms) := by
  unfold applySynGroup
  rcases g.synonym with _ | l
  · rfl
  · rfl

lemma subSectionFields_cid : ∀ hf ∈ subSectionFields, ∀ (r : InsertCompound) (v : String),
    (hf.2 r v).cid = r.cid := by
  intro hf hmem r v
  fin_cases hmem <;> first
    | rfl
    | (cases hpd : parseDecimal v <;> simp [hpd])

lemma subSectionFields_name : ∀ hf ∈ subSectionFields, ∀ (r : InsertCompound) (v : String),
    (hf.2 r v).name = r.name := by
  intro hf hmem r v
  fin_cases hmem <;> first
    | rfl
    | (cases hpd : parseDecimal v <;> simp [hpd])

lemma subSectionFields_chemicalClass : ∀ hf ∈ subSectionFields,
    ∀ (r : InsertCompound) (v : String), (hf.2 r v).chemicalClass = r.chemicalClass := by
  intro hf hmem r v
  fin_cases hmem <;> first
    | rfl
    | (cases hpd : parseDecimal v <;> simp [hpd])

lemma applySubSection_cid (r : InsertCompound) (s : RecSubSection) :
    (applySubSection r s).cid = r.cid := by
  unfold applySubSection
  exact foldl_preserve_mem InsertCompound.cid _ subSectionFields
    (fun hf hmem r => setFromInfo_preserve _ _ _ _ _ _ (subSectionFields_cid hf hmem)) r

lemma applySubSection_name (r : InsertCompound) (s : RecSubSection) :
    (applySubSection r s).name = r.name := by
  unfold applySubSection
  exact foldl_preserve_mem InsertCompound.name _ subSectionFields
    (fun hf hmem r => setFromInfo_preserve _ _ _ _ _ _ (subSectionFields_name hf hmem)) r

lemma applySubSection_chemicalClass (r : InsertCompound) (s : RecSubSection) :
    (applySubSection r s).chemicalClass = r.chemicalClass := by
  unfold applySubSection
  exact foldl_preserve_mem InsertCompound.chemicalClass _ subSectionFields
    (fun hf hmem r => setFromInfo_preserve _ _ _ _ _ _ (subSectionFields_chemicalClass hf hmem)) r

lemma applyInfoSection_cid (r : InsertCompound) (s : RecSection2) :
    (applyInfoSection r s).cid = r.cid := by
  unfold applyInfoSection
  split_ifs
  · rcases s.sectionList with _ | subs
    · exact setFromInfo_preserve _ _ _ _ _ _ (fun _ _ => rfl)
    · simp only
      exact (foldl_preserve InsertCompound.cid applySubSection applySubSection_cid subs _).trans
        (setFromInfo_preserve _ _ _ _ _ _ (fun _ _ => rfl))
  · exact setFromInfo_preserve _ _ _ _ _ _ (fun _ _ => rfl)

lemma applyInfoSection_name (r : InsertCompound) (s : RecSection2) :
    (applyInfoSection r s).name = r.name := by
  unfold applyInfoSection
  split_ifs
  · rcases s.sectionList with _ | subs
    · exact setFromInfo_preserve _ _ _ _ _ _ (fun _ _ => rfl)
    · simp only
      exact (foldl_preserve InsertCompound.name applySubSection applySubSection_name subs _).trans
        (setFromInfo_preserve _ _ _ _ _ _ (fun _ _ => rfl))
  · exact setFromInfo_preserve _ _ _ _ _ _ (fun _ _ => rfl)

lemma applyInfoSection_chemicalClass (r : InsertCompound) (s : RecSection2) :
    (applyInfoSection r s).chemicalClass = r.chemicalClass := by
  unfold applyInfoSection
  split_ifs
  · rcases s.sectionList with _ | subs
    · exact setFromInfo_preserve _ _ _ _ _ _ (fun _ _ => rfl)
    · simp only
      exact (foldl_preserve InsertCompound.chemicalClass applySubSection
        applySubSection_chemicalClass subs _).trans
        (setFromInfo_preserve _ _ _ _ _ _ (fun _ _ => rfl))
  · exact setFromInfo_preserve _ _ _ _ _ _ (fun _ _ => rfl)

lemma finishClasses_cid (r : InsertCompound) : (finishClasses r).cid = r.cid := by
  simp only [finishClasses]; split_ifs <;> rfl

lemma finishClasses_name (r : InsertCompound) : (finishClasses r).name = r.name := by
  simp only [finishClasses]; split_ifs <;> rfl

lemma finishClasses_formula (r : InsertCompound) : (finishClasses r).formula = r.formula := by
  simp only [finishClasses]; split_ifs <;> rfl

lemma finishClasses_synonyms (r : InsertCompound) : (finishClasses r).synonyms = r.synonyms := by
  simp only [finishClasses]; split_ifs <;> rfl

lemma finishClasses_chemicalClass (r : InsertCompound) :
    (finishClasses r).chemicalClass =
      (if (deriveChemicalClasses r.formula).length > 0 then some (deriveChemicalClasses r.formula)
       else r.chemicalClass) := by
  simp only [finishClasses, decide_eq_true_eq]
  split_ifs <;> rfl

lemma processPCCompound_ok_cid {c : PCCompound} {ic : InsertCompound}
    (h : processPCCompound c = .ok ic) : ic.cid ≠ 0 := by
  simp only [processPCCompound] at h
  set n : Int := (match c.cid with | some v => v | none => 0) with hn
  by_cases hz : n = 0
  · rw [if_pos (by simpa using hz)] at h
    simp at h
  · rw [if_neg (by simpa using hz)] at h
    have hic := Except.ok.inj h
    have hcid : ic.cid = n := by
      rw [← hic, finishClasses_cid]
      rcases c.synonyms with _ | gs <;> rcases c.props with _ | ps <;>
        simp [apply_ite InsertCompound.cid,
          foldl_preserve _ _ applySynGroup_cid, foldl_preserve _ _ applyPCProp_cid]
    rw [hcid]
    exact hz

lemma processPCCompound_ok_chemicalClass {c : PCCompound} {ic : InsertCompound}
    (h : processPCCompound c = .ok ic) :
    ic.chemicalClass =
      (if (deriveChemicalClasses ic.formula).length > 0 then some (deriveChemicalClasses ic.formula)
       else none) := by
  simp only [processPCCompound] at h
  set n : Int := (match c.cid with | some v => v | none => 0) with hn
  by_cases hz : n = 0
  · rw [if_pos (by simpa using hz)] at h
    simp at h
  · rw [if_neg (by simpa using hz)] at h
    have hic := Except.ok.inj h
    rw [← hic, finishClasses_chemicalClass, finishClasses_formula]
    rcases c.synonyms with _ | gs <;> rcases c.props with _ | ps <;>
      simp [apply_ite InsertCompound.chemicalClass, apply_ite InsertCompound.formula,
        foldl_preserve _ _ applySynGroup_chemicalClass, foldl_preserve _ _ applyPCProp_chemicalClass]

lemma processRecordFormat_ok_cid {rec : RecordData} {ic : InsertCompound}
    (h : processRecordFormat rec = .ok ic) : ic.cid ≠ 0 := by
  simp only [processRecordFormat] at h
  set n : Int := (match rec.recordNumber with | some v => v | none => 0) with hn
  by_cases hz : n = 0
  · rw [if_pos (by simpa using hz)] at h
    simp at h
  · rw [if_neg (by simpa using hz)] at h
    rw [← apply_ite Except.ok] at h
    have hic := Except.ok.inj h
    have hcid : ic.cid = n := by
      rw [← hic]
      rcases rec.recordTitle with _ | t <;> rcases rec.sectionList with _ | secs <;>
        simp [apply_ite InsertCompound.cid, finishClasses_cid,
          foldl_preserve _ _ applyInfoSection_cid]
    rw [hcid]
    exact hz

lemma processRecordFormat_ok_chemicalClass {rec : RecordData} {ic : InsertCompound}
    (h : processRecordFormat rec = .ok ic) :
    ic.chemicalClass =
      (if (deriveChemicalClasses ic.formula).length > 0 then some (deriveChemicalClasses ic.formula)
       else none) := by
  simp only [processRecordFormat] at h
  set n : Int := (match rec.recordNumber with | some v => v | none => 0) with hn
  by_cases hz : n = 0
  · rw [if_pos (by simpa using hz)] at h
    simp at h
  · rw [if_neg (by simpa using hz)] at h
    rw [← apply_ite Except.ok] at h
    have hic := Except.ok.inj h
    rw [← hic]
    rcases rec.recordTitle with _ | t <;> rcases rec.sectionList with _ | secs <;>
      simp [apply_ite InsertCompound.chemicalClass, apply_ite InsertCompound.formula,
        finishClasses_chemicalClass, finishClasses_formula,
        foldl_preserve _ _ applyInfoSection_chemicalClass]

lemma validateCompound_ok_cid {d : RawInput} {ic : InsertCompound}
    (h : validateCompound d = .ok ic) : ic.cid ≠ 0 := by
  simp only [validateCompound] at h
  by_cases ht : jsTruthyInt d.cid = true
  · rw [if_neg (by simp [ht])] at h
    have hic := Except.ok.inj h
    rw [← hic]
    rcases hc : d.cid with _ | v
    · rw [hc] at ht; simp [jsTruthyInt] at ht
    · rw [hc] at ht
      simp only [jsTruthyInt, bne_iff_ne] at ht
      simpa using ht
  · rw [if_pos (by simpa using ht)] at h
    simp at h

lemma validateCompound_ok_chemicalClass {d : RawInput} {ic : InsertCompound}
    (h : validateCompound d = .ok ic) : ic.chemicalClass = d.chemicalClass := by
  simp only [validateCompound] at h
  by_cases ht : jsTruthyInt d.cid = true
  · rw [if_neg (by simp [ht])] at h
    have hic := Except.ok.inj h
    rw [← hic]
  · rw [if_pos (by simpa using ht)] at h
    simp at h
lemma foldl_applySynGroup_synonyms : ∀ (gs : List SynGroup) (r : InsertCompound),
    (gs.foldl applySynGroup r).synonyms =
      gs.foldl (fun acc g =>
        match g.synonym with
        | some l => some l
        | none => acc) r.synonyms
  | [], _ => rfl
  | g :: gs, r => by
    rw [List.foldl_cons, List.foldl_cons, foldl_applySynGroup_synonyms gs,
      applySynGroup_synonyms]

lemma foldl_applySynGroup_name_ne : ∀ (gs : List SynGroup) (r : InsertCompound), r.name ≠ "" →
    (gs.foldl applySynGroup r).name = r.name
  | [], _, _ => rfl
  | g :: gs, r, h => by
    rw [List.foldl_cons,
      foldl_applySynGroup_name_ne gs _ (by rw [applySynGroup_name_ne r g h]; exact h),
      applySynGroup_name_ne r g h]

lemma processPCCompound_ok_synonyms {c : PCCompound} {ic : InsertCompound}
    {gs : List SynGroup} (hsyn : c.synonyms = some gs)
    (h : processPCCompound c = .ok ic) :
    ic.synonyms =
      gs.foldl (fun acc g =>
        match g.synonym with
        | some l => some l
        | none => acc) none := by
  simp only [processPCCompound] at h
  set n : Int := (match c.cid with | some v => v | none => 0) with hn
  by_cases hz : n = 0
  · rw [if_pos (by simpa using hz)] at h
    simp at h
  · rw [if_neg (by simpa using hz)] at h
    have hic := Except.ok.inj h
    rw [← hic, finishClasses_synonyms, hsyn]
    rcases c.props with _ | ps <;>
      simp [apply_ite InsertCompound.synonyms, foldl_applySynGroup_synonyms,
        foldl_preserve _ _ applyPCProp_synonyms]

lemma processPCCompound_ok_name {c : PCCompound} {ic : InsertCompound}
    {s : String} {rest : List String} {gs' : List SynGroup}
    (hsyn : c.synonyms = some ({ synonym := some (s :: rest) } :: gs'))
    (hs : s ≠ "") (h : processPCCompound c = .ok ic) : ic.name = s := by
  simp only [processPCCompound] at h
  set n : Int := (match c.cid with | some v => v | none => 0) with hn
  by_cases hz : n = 0
  · rw [if_pos (by simpa using hz)] at h
    simp at h
  · rw [if_neg (by simpa using hz)] at h
    have hic := Except.ok.inj h
    have hgen : ∀ r : InsertCompound, r.name = "" →
        (gs'.foldl applySynGroup (applySynGroup r { synonym := some (s :: rest) })).name = s := by
      intro r hr
      have h1 : (applySynGroup r { synonym := some (s :: rest) }).name = s := by
        unfold applySynGroup
        simp [hr]
      rw [foldl_applySynGroup_name_ne gs' _ (by rw [h1]; exact hs), h1]
    rw [← hic, finishClasses_name, hsyn]
    rcases c.props with _ | ps
    · have hE := hgen { cid := n, name := "", molecularWeight := some 0, properties := some [] } rfl
      simp [apply_ite InsertCompound.name, hE, hs]
    · have hE := hgen
        (List.foldl applyPCProp
          { cid := n, name := "", molecularWeight := some 0, properties := some [] } ps)
        (by simp [foldl_preserve _ _ applyPCProp_name])
      simp [apply_ite InsertCompound.name, hE, hs]
lemma memCreateCompound_length (st : MemStorage) (ic : InsertCompound)
    (h : st.compounds.any (fun p => p.1 == st.currentCompoundId) = false) :
    (memCreateCompound st ic).2.compounds.length = st.compounds.length + 1 := by
  simp only [memCreateCompound, jsMapSet, h]
  simp

lemma buildRows_length : ∀ (cs : List InsertCompound) (startId : Int),
    (buildRows startId cs).length = cs.length
  | [], _ => rfl
  | c :: rest, startId => by
    simp only [buildRows, List.length_cons, buildRows_length rest (startId + 1)]

lemma buildRows_any_cid : ∀ (cs : List InsertCompound) (startId : Int) (x : Int),
    ((buildRows startId cs).any (fun r => r.cid == x)) = cs.any (fun c => c.cid == x)
  | [], _, _ => rfl
  | c :: rest, startId, x => by
    simp only [buildRows, List.any_cons, buildRows_any_cid rest (startId + 1) x]
    rfl

lemma batchInsert_ok {t : SupabaseTable} {cs : List InsertCompound} {n : Nat}
    {t' : SupabaseTable} (h : supabaseBatchInsertCompounds t cs = .ok (n, t')) :
    (cs.all (fun c => cidFree t c.cid) = true) ∧ (noDupCids cs = true) ∧
      n = cs.length ∧ t'.rows = t.rows ++ buildRows t.nextId cs := by
  simp only [supabaseBatchInsertCompounds] at h
  split_ifs at h with hg
  have hp := Prod.mk.injEq .. ▸ Except.ok.inj h
  rw [Bool.and_eq_true] at hg
  refine ⟨hg.1, hg.2, hp.1.symm, ?_⟩
  rw [← hp.2]

lemma batchInsert_length {t : SupabaseTable} {cs : List InsertCompound} {n : Nat}
    {t' : SupabaseTable} (h : supabaseBatchInsertCompounds t cs = .ok (n, t')) :
    t'.rows.length = t.rows.length + cs.length := by
  rcases batchInsert_ok h with ⟨_, _, _, hr⟩
  rw [hr]
  simp [buildRows_length]

lemma batchInsert_again_fails {t : SupabaseTable} {cs : List InsertCompound} {n : Nat}
    {t' : SupabaseTable} (h : supabaseBatchInsertCompounds t cs = .ok (n, t'))
    (hne : cs ≠ []) : (supabaseBatchInsertCompounds t' cs).isOk = false := by
  rcases batchInsert_ok h with ⟨_, _, _, hr⟩
  rcases cs with _ | ⟨c, rest⟩
  · exact absurd rfl hne
  · have hfree : cidFree t' c.cid = false := by
      simp only [cidFree, hr]
      simp [List.any_append, buildRows_any_cid, List.any_cons]
    simp only [supabaseBatchInsertCompounds]
    rw [if_neg]
    · rfl
    · simp [List.all_cons, hfree]
lemma rowsNoDupCids_append (xs ys : List Compound)
    (hx : rowsNoDupCids xs = true) (hy : rowsNoDupCids ys = true)
    (hsep : ∀ x ∈ xs, ys.any (fun s => s.cid == x.cid) = false) :
    rowsNoDupCids (xs ++ ys) = true := by
  induction xs with
  | nil => simpa using hy
  | cons x xs ih =>
    simp only [rowsNoDupCids, Bool.and_eq_true, Bool.not_eq_true'] at hx
    simp only [List.cons_append, rowsNoDupCids, Bool.and_eq_true, Bool.not_eq_true']
    refine ⟨?_, ih hx.2 (fun y hy' => hsep y (List.mem_cons_of_mem x hy'))⟩
    rw [List.append_eq, List.any_append]
    simp [hx.1, hsep x (List.mem_cons_self x xs)]

lemma rowsNoDupCids_buildRows : ∀ (cs : List InsertCompound) (startId : Int),
    noDupCids cs = true → rowsNoDupCids (buildRows startId cs) = true
  | [], _, _ => rfl
  | c :: rest, startId, h => by
    simp only [noDupCids, Bool.and_eq_true, Bool.not_eq_true'] at h
    simp only [buildRows, rowsNoDupCids, Bool.and_eq_true, Bool.not_eq_true']
    refine ⟨?_, rowsNoDupCids_buildRows rest _ h.2⟩
    have : ((rowOfInsert startId c).cid) = c.cid := rfl
    rw [this, buildRows_any_cid]
    exact h.1

lemma batchInsert_preserves_noDup {t : SupabaseTable} {cs : List InsertCompound}
    {n : Nat} {t' : SupabaseTable} (h : supabaseBatchInsertCompounds t cs = .ok (n, t'))
    (ht : rowsNoDupCids t.rows = true) : rowsNoDupCids t'.rows = true := by
  rcases batchInsert_ok h with ⟨hall, hdup, _, hr⟩
  rw [hr]
  apply rowsNoDupCids_append _ _ ht (rowsNoDupCids_buildRows cs _ hdup)
  intro x hx
  rw [buildRows_any_cid]
  by_contra hany
  rw [Bool.not_eq_false, List.any_eq_true] at hany
  rcases hany with ⟨c, hc, hcc⟩
  have hfree := List.all_eq_true.mp hall c hc
  simp only [cidFree, Bool.not_eq_true', List.any_eq_false] at hfree
  have hx' := hfree x hx
  rw [beq_iff_eq] at hx' hcc
  exact hx' hcc.symm
lemma filterByMolecularWeight_eq {c : Compound} {w : ℚ} (hmw : c.molecularWeight = some w)
    (hw : w ≠ 0) (f : String) :
    filterByMolecularWeight c f =
      (if f == "lt_100" then decide (w < 100)
       else if f == "100-200" then decide (100 ≤ w ∧ w ≤ 200)
       else if f == "200-500" then decide (200 < w ∧ w ≤ 500)
       else if f == "gt_500" then decide (500 < w)
       else true) := by
  have ht : jsTruthyNum (some w) = true := by simp [jsTruthyNum, hw]
  simp [filterByMolecularWeight, hmw, ht]


/-! ## Claim theorems -/

/-- C1 counterexample: submitting the same compound (cid 2244) twice through
`MemStorage.createCompound` leaves TWO rows with that cid in the primary
by-id `compounds` map, refuting "the Primary Store ends with exactly one row
for that cid" and "no two stored rows ever share a cid". -/
theorem c1_counterexample :
    memRowsWithCid
      (memCreateCompound (memCreateCompound {} aspirinIC).2 aspirinIC).2 2244 = 2 := by
  rfl

/-- C1 (amended): the write paths do not check-then-insert. Every
`MemStorage.createCompound` call appends one fresh row regardless of the cid
already being present (so n submissions of a cid leave n rows); the Supabase
`batchInsertCompounds` inserts its whole batch blindly, and only the table's
UNIQUE(cid) constraint stops duplicates: re-submitting a non-empty batch that
was just inserted fails with an error (leaving the table as it was), and a
successful batch insert preserves the at-most-one-row-per-cid invariant of
the database table. -/
theorem c1_ingestion_not_idempotent :
    (∀ (st : MemStorage) (ic : InsertCompound),
        st.compounds.any (fun p => p.1 == st.currentCompoundId) = false →
        (memCreateCompound st ic).2.compounds.length = st.compounds.length + 1)
    ∧ (∀ (t : SupabaseTable) (cs : List InsertCompound) (n : Nat) (t' : SupabaseTable),
        supabaseBatchInsertCompounds t cs = .ok (n, t') →
        t'.rows.length = t.rows.length + cs.length)
    ∧ (∀ (t : SupabaseTable) (cs : List InsertCompound) (n : Nat) (t' : SupabaseTable),
        supabaseBatchInsertCompounds t cs = .ok (n, t') → cs ≠ [] →
        (supabaseBatchInsertCompounds t' cs).isOk = false)
    ∧ (∀ (t : SupabaseTable) (cs : List InsertCompound) (n : Nat) (t' : SupabaseTable),
        supabaseBatchInsertCompounds t cs = .ok (n, t') →
        rowsNoDupCids t.rows = true → rowsNoDupCids t'.rows = true) :=
  ⟨memCreateCompound_length,
   fun _ _ _ _ h => batchInsert_length h,
   fun _ _ _ _ h hne => batchInsert_again_fails h hne,
   fun _ _ _ _ h ht => batchInsert_preserves_noDup h ht⟩

/-- C1 witness: the amended theorem evaluated on the empty in-memory store
and a freshly inserted one-element batch. -/
theorem c1_ingestion_not_idempotent_witness :
    (memCreateCompound ({} : MemStorage) aspirinIC).2.compounds.length
        = ({} : MemStorage).compounds.length + 1
    ∧ (supabaseBatchInsertCompounds
        { rows := [rowOfInsert 1 aspirinIC], nextId := 2 } [aspirinIC]).isOk = false := by
  constructor
  · exact c1_ingestion_not_idempotent.1 {} aspirinIC rfl
  · exact c1_ingestion_not_idempotent.2.2.1 { rows := [], nextId := 1 } [aspirinIC] 1
      { rows := [rowOfInsert 1 aspirinIC], nextId := 2 } rfl (by simp)

/-- C2 counterexample: with the Aspirin row already stored, the live
`createCompound` raises a duplicate-key error instead of returning the
existing row unchanged. -/
theorem c2_counterexample :
    supabaseCreateCompound tableWithAspirin aspirinIC =
      .error "Failed to create compound in Supabase: duplicate key value violates unique constraint" := by
  rfl

/-- C2 (amended): only the `addCompound` helper implements check-then-return:
when a row with the cid exists it returns that row unchanged without touching
the table, and only when absent does it insert; the live `createCompound`
used by `SupabaseStorage.createCompound` inserts unconditionally, so a
pre-existing cid makes it fail with an error rather than return the row. -/
theorem c2_create_not_idempotent :
    (∀ (t : SupabaseTable) (ic : InsertCompound) (r : Compound),
        t.rows.find? (fun row => row.cid == ic.cid) = some r →
        supabaseAddCompound t ic = .ok (r, t))
    ∧ (∀ (t : SupabaseTable) (ic : InsertCompound),
        t.rows.find? (fun row => row.cid == ic.cid) = none →
        supabaseAddCompound t ic = .ok (rowOfInsertRaw t.nextId ic,
          { rows := t.rows ++ [rowOfInsertRaw t.nextId ic], nextId := t.nextId + 1 }))
    ∧ (∀ (t : SupabaseTable) (ic : InsertCompound),
        cidFree t ic.cid = false → (supabaseCreateCompound t ic).isOk = false) := by
  refine ⟨?_, ?_, ?_⟩
  · intro t ic r h
    simp only [supabaseAddCompound, h]
  · intro t ic h
    simp only [supabaseAddCompound, h]
  · intro t ic h
    simp only [supabaseCreateCompound]
    rw [if_neg (by simp [h])]
    rfl

/-- C2 witness: the amended theorem evaluated on the table already holding
Aspirin: `addCompound` returns the stored row and leaves the table alone,
while `createCompound` fails. -/
theorem c2_create_not_idempotent_witness :
    supabaseAddCompound tableWithAspirin aspirinIC =
      .ok (rowOfInsert 1 aspirinIC, tableWithAspirin)
    ∧ (supabaseCreateCompound tableWithAspirin aspirinIC).isOk = false := by
  constructor
  · exact c2_create_not_idempotent.1 tableWithAspirin aspirinIC (rowOfInsert 1 aspirinIC) rfl
  · exact c2_create_not_idempotent.2.2 tableWithAspirin aspirinIC rfl

/-- C3 counterexample: the live coordinator `SupabaseStorage.searchCompounds`
re-wraps and rethrows a vector-adapter failure on a semantic request — it
propagates the failure instead of returning a keyword-sourced
`SearchResponse`. -/
theorem c3_counterexample :
    supabaseSearchCompounds tableWithAspirin
      (.error "Weaviate connection failed. Please ensure Weaviate is running.")
      { query := "aspirin" } =
    .error "Cannot search compounds in database: Weaviate connection failed. Please ensure Weaviate is running." := by
  rfl

/-- C3 (amended): the downgrade-to-keyword fallback exists only in the
`part_008` storage variant: when the vector adapter fails on a semantic
request, that coordinator returns the non-error response of the in-memory
keyword search run with `searchType` downgraded to `"keyword"`. -/
theorem c3_fallback_only_in_variant :
    ∀ (st : MemStorage) (q : SearchQuery) (e : String),
      q.searchType = "semantic" →
      part008SearchCompounds st (.error e) q =
        .ok (part008KeywordSearch st { q with searchType := "keyword" }) := by
  intro st q e hq
  simp [part008SearchCompounds, hq]

/-- C3 witness: the variant coordinator evaluated on a one-compound store
with the vector adapter forced unavailable. -/
theorem c3_fallback_only_in_variant_witness :
    part008SearchCompounds (memCreateCompound {} aspirinIC).2
      (.error "AstraDB connection failed") { query := "aspirin" } =
    .ok (part008KeywordSearch (memCreateCompound {} aspirinIC).2
      { query := "aspirin", searchType := "keyword" }) :=
  c3_fallback_only_in_variant (memCreateCompound {} aspirinIC).2 { query := "aspirin" }
    "AstraDB connection failed" rfl

/-- C4 counterexample: the Supabase/AstraDB/Pinecone query filters implement
every bucket as a closed range, so the boundary weights land in two buckets
(200 passes both "100-200" and "200-500", 100 passes both "lt_100" and
"100-200") and a weight above 10000 matches no bucket under "gt_500" —
refuting the claimed exactly-one-bucket boundaries for those filters. -/
theorem c4_counterexample :
    rangeWeightMatch 200 "100-200" = true ∧ rangeWeightMatch 200 "200-500" = true ∧
      rangeWeightMatch 100 "lt_100" = true ∧ rangeWeightMatch 100 "100-200" = true ∧
      rangeWeightMatch 20000 "gt_500" = false :=
  ⟨by decide, by decide, by decide, by decide, by decide⟩

/-- C4 (amended): the in-memory `filterByMolecularWeight` (both storage
classes) does implement exactly the claimed boundaries — for every known
non-zero weight w: lt_100 iff w < 100, 100-200 iff 100 ≤ w ≤ 200, 200-500
iff 200 < w ≤ 500, gt_500 iff w > 500, and exactly one of the four buckets
accepts w; the backend-native range filters of the Supabase keyword query
and the AstraDB/Pinecone semantic queries instead use closed ranges
[0,100], [100,200], [200,500], [500,10000] that overlap at 100, 200, 500. -/
theorem c4_bucket_boundaries :
    ∀ (c : Compound) (w : ℚ), c.molecularWeight = some w → w ≠ 0 →
      ((filterByMolecularWeight c "lt_100" = true ↔ w < 100)
       ∧ (filterByMolecularWeight c "100-200" = true ↔ 100 ≤ w ∧ w ≤ 200)
       ∧ (filterByMolecularWeight c "200-500" = true ↔ 200 < w ∧ w ≤ 500)
       ∧ (filterByMolecularWeight c "gt_500" = true ↔ 500 < w)
       ∧ (["lt_100", "100-200", "200-500", "gt_500"].filter
            (fun f => filterByMolecularWeight c f)).length = 1) := by
  intro c w hmw hw
  have h1 := filterByMolecularWeight_eq hmw hw "lt_100"
  have h2 := filterByMolecularWeight_eq hmw hw "100-200"
  have h3 := filterByMolecularWeight_eq hmw hw "200-500"
  have h4 := filterByMolecularWeight_eq hmw hw "gt_500"
  simp only [show (("lt_100" : String) == "lt_100") = true from rfl] at h1
  simp only [show (("100-200" : String) == "lt_100") = false from rfl,
    show (("100-200" : String) == "100-200") = true from rfl] at h2
  simp only [show (("200-500" : String) == "lt_100") = false from rfl,
    show (("200-500" : String) == "100-200") = false from rfl,
    show (("200-500" : String) == "200-500") = true from rfl] at h3
  simp only [show (("gt_500" : String) == "lt_100") = false from rfl,
    show (("gt_500" : String) == "100-200") = false from rfl,
    show (("gt_500" : String) == "200-500") = false from rfl,
    show (("gt_500" : String) == "gt_500") = true from rfl] at h4
  simp only [if_true, if_false] at h1 h2 h3 h4
  refine ⟨by rw [h1]; simp, by rw [h2]; simp, by rw [h3]; simp, by rw [h4]; simp, ?_⟩
  rcases lt_or_le w 100 with hA | hA
  · have b2 : ¬(100 ≤ w) := not_le.mpr hA
    have b3 : ¬(200 < w) := by linarith
    have b4 : ¬(500 < w) := by linarith
    simp [List.filter_cons, h1, h2, h3, h4, hA, b2, b3, b4]
  · rcases le_or_lt w 200 with hB | hB
    · have b1 : ¬(w < 100) := not_lt.mpr hA
      have b3 : ¬(200 < w) := not_lt.mpr hB
      have b4 : ¬(500 < w) := by linarith
      simp [List.filter_cons, h1, h2, h3, h4, b1, hA, hB, b3, b4]
    · rcases le_or_lt w 500 with hC | hC
      · have b1 : ¬(w < 100) := by linarith
        have b2 : ¬(w ≤ 200) := not_le.mpr hB
        have b4 : ¬(500 < w) := by linarith
        simp [List.filter_cons, h1, h2, h3, h4, b1, b2, hB, hC, b4]
      · have b1 : ¬(w < 100) := by linarith
        have b2 : ¬(w ≤ 200) := by linarith
        have b3 : ¬(w ≤ 500) := not_le.mpr hC
        simp [List.filter_cons, h1, h2, h3, h4, b1, b2, b3, hC]

/-- C4 witness: the amended boundary theorem evaluated at weight 150. -/
theorem c4_bucket_boundaries_witness :
    filterByMolecularWeight { id := 1, cid := 1, name := "x", molecularWeight := some 150 }
      "100-200" = true
    ∧ (["lt_100", "100-200", "200-500", "gt_500"].filter
        (fun f => filterByMolecularWeight
          { id := 1, cid := 1, name := "x", molecularWeight := some 150 } f)).length = 1 := by
  obtain ⟨_, h2, _, _, h5⟩ :=
    c4_bucket_boundaries { id := 1, cid := 1, name := "x", molecularWeight := some 150 } 150
      rfl (by norm_num)
  exact ⟨h2.mpr ⟨by norm_num, by norm_num⟩, h5⟩

/-- C5: `processCompoundData` tries the three recognized shapes in fixed
order — a non-empty PC_Compounds collection wins over everything, then a
present Record tree, then a direct object with truthy `cid` and `name` — and
an input matching none of the three fails with the unrecognized-format error
(producing no partial compound). -/
theorem c5_detection_order :
    (∀ (d : RawInput) (c : PCCompound) (cs : List PCCompound),
        d.pcCompounds = some (c :: cs) → processCompoundData d = processPCCompound c)
    ∧ (∀ (d : RawInput) (r : RecordData),
        (d.pcCompounds = none ∨ d.pcCompounds = some []) → d.record = some r →
        processCompoundData d = processRecordFormat r)
    ∧ (∀ d : RawInput,
        (d.pcCompounds = none ∨ d.pcCompounds = some []) → d.record = none →
        (jsTruthyInt d.cid && jsTruthyStr d.name) = true →
        processCompoundData d = validateCompound d)
    ∧ (∀ d : RawInput,
        (d.pcCompounds = none ∨ d.pcCompounds = some []) → d.record = none →
        (jsTruthyInt d.cid && jsTruthyStr d.name) = false →
        processCompoundData d = .error "Unknown PubChem data format") := by
  refine ⟨?_, ?_, ?_, ?_⟩
  · intro d c cs h
    simp only [processCompoundData, h]
  · intro d r hpc hr
    rcases hpc with h | h <;> simp only [processCompoundData, h, hr]
  · intro d hpc hr ht
    rcases hpc with h | h <;> simp [processCompoundData, h, hr, ht]
  · intro d hpc hr ht
    rcases hpc with h | h <;> simp [processCompoundData, h, hr, ht]

/-- C5 witness: the detection order evaluated on concrete inputs — an input
carrying both a PC_Compounds collection and a Record tree goes to the
PC_Compounds extractor, a Record-only input to the Record extractor, the
direct glucose object to `validateCompound`, and an object with a cid but a
falsy name is rejected as unrecognized. -/
theorem c5_detection_order_witness :
    processCompoundData
        { pcCompounds := some [pcTwoGroups], record := some { recordNumber := some 3 } }
      = processPCCompound pcTwoGroups
    ∧ processCompoundData { record := some { recordNumber := some 3 } }
      = processRecordFormat { recordNumber := some 3 }
    ∧ processCompoundData glucoseRaw = validateCompound glucoseRaw
    ∧ processCompoundData { cid := some 5, name := some "" }
      = .error "Unknown PubChem data format" := by
  refine ⟨?_, ?_, ?_, ?_⟩
  · exact c5_detection_order.1 _ pcTwoGroups [] rfl
  · exact c5_detection_order.2.1 _ { recordNumber := some 3 } (Or.inl rfl) rfl
  · exact c5_detection_order.2.2.1 glucoseRaw (Or.inl rfl) rfl rfl
  · exact c5_detection_order.2.2.2 _ (Or.inl rfl) rfl rfl

/-- C6 counterexample: a direct-format object carrying a cid but no name is
not recognized as format 3 at all (detection requires both `cid` and `name`
truthy), so normalization fails with the unrecognized-format error — the
claim that a missing name does not cause failure is false through
`processCompoundData`. -/
theorem c6_counterexample :
    processCompoundData { cid := some 5 } = .error "Unknown PubChem data format" := by
  rfl

/-- C6 (amended): in formats 1 and 2 a missing or zero identifier fails with
the missing-CID error, and no successful normalization ever returns cid 0;
but in the direct format a missing or zero `cid` — and equally a missing
`name` — prevents detection, so the input fails with the unrecognized-format
error instead of the missing-CID error; `validateCompound` itself does
default a falsy name to `"Compound <cid>"`, yet it is only reachable when
both `cid` and `name` are truthy. -/
theorem c6_missing_cid :
    (∀ c : PCCompound, (c.cid = none ∨ c.cid = some 0) →
        processPCCompound c = .error "Missing compound ID (CID)")
    ∧ (∀ rec : RecordData, (rec.recordNumber = none ∨ rec.recordNumber = some 0) →
        processRecordFormat rec = .error "Missing compound ID (CID)")
    ∧ (∀ (d : RawInput) (ic : InsertCompound), processCompoundData d = .ok ic → ic.cid ≠ 0)
    ∧ (∀ d : RawInput, (d.pcCompounds = none ∨ d.pcCompounds = some []) → d.record = none →
        jsTruthyStr d.name = false →
        processCompoundData d = .error "Unknown PubChem data format")
    ∧ (∀ d : RawInput, jsTruthyInt d.cid = true → jsTruthyStr d.name = false →
        (validateCompound d).map InsertCompound.name =
          .ok ("Compound " ++ toString (d.cid.getD 0))) := by
  refine ⟨?_, ?_, ?_, ?_, ?_⟩
  · intro c h
    rcases h with h | h <;> simp [processPCCompound, h]
  · intro rec h
    rcases h with h | h <;> simp [processRecordFormat, h]
  · intro d ic h
    rcases hpc : d.pcCompounds with _ | ls
    · simp only [processCompoundData, hpc] at h
      rcases hr : d.record with _ | r
      · simp only [hr] at h
        by_cases hc : (jsTruthyInt d.cid && jsTruthyStr d.name) = true
        · rw [if_pos hc] at h
          exact validateCompound_ok_cid h
        · rw [if_neg hc] at h
          simp at h
      · simp only [hr] at h
        exact processRecordFormat_ok_cid h
    · rcases ls with _ | ⟨c, cs⟩
      · simp only [processCompoundData, hpc] at h
        rcases hr : d.record with _ | r
        · simp only [hr] at h
          by_cases hc : (jsTruthyInt d.cid && jsTruthyStr d.name) = true
          · rw [if_pos hc] at h
            exact validateCompound_ok_cid h
          · rw [if_neg hc] at h
            simp at h
        · simp only [hr] at h
          exact processRecordFormat_ok_cid h
      · simp only [processCompoundData, hpc] at h
        exact processPCCompound_ok_cid h
  · intro d hpc hr hn
    rcases hpc with h | h <;> simp [processCompoundData, h, hr, hn]
  · intro d h1 h2
    simp [validateCompound, h1, h2, Except.map]

/-- C6 witness: the amended theorem evaluated on concrete inputs — a
PC_Compounds record with cid 0, a Record tree without a RecordNumber, the
normalized glucose record, a direct object with a cid but falsy name, and
`validateCompound` defaulting the name for cid 5. -/
theorem c6_missing_cid_witness :
    processPCCompound { cid := some 0 } = .error "Missing compound ID (CID)"
    ∧ processRecordFormat { recordNumber := none } = .error "Missing compound ID (CID)"
    ∧ glucoseNormalized.cid ≠ 0
    ∧ processCompoundData { cid := some 9, formula := some "XYZ" }
        = .error "Unknown PubChem data format"
    ∧ (validateCompound { cid := some 5 }).map InsertCompound.name = .ok "Compound 5" := by
  refine ⟨?_, ?_, ?_, ?_, ?_⟩
  · exact c6_missing_cid.1 _ (Or.inr rfl)
  · exact c6_missing_cid.2.1 _ (Or.inl rfl)
  · exact c6_missing_cid.2.2.1 glucoseRaw glucoseNormalized rfl
  · exact c6_missing_cid.2.2.2.1 _ (Or.inl rfl) rfl rfl
  · exact c6_missing_cid.2.2.2.2 _ rfl rfl

/-- C7 counterexample: a direct-format record with formula C6H12O6 and no
explicit classification normalizes with NO derived `chemicalClass` — the
formula heuristics are not applied in the direct/flat format, refuting "this
post-processing applies in every detected format". -/
theorem c7_counterexample :
    (processCompoundData glucoseRaw).map InsertCompound.chemicalClass = .ok none := by
  rfl

/-- C7 (amended): the formula-substring derivation is applied by the
PC_Compounds and Record extractors (their outputs always carry exactly the
classes derived from the extracted formula, or none when the derivation is
empty), with C6H12O6 deriving the organic and oxygen labels and NaCl the
inorganic label; the direct format performs no derivation and passes the
source's `chemicalClass` through unchanged (absent when not provided). -/
theorem c7_class_derivation :
    (∀ (c : PCCompound) (ic : InsertCompound), processPCCompound c = .ok ic →
        ic.chemicalClass =
          (if (deriveChemicalClasses ic.formula).length > 0
           then some (deriveChemicalClasses ic.formula) else none))
    ∧ (∀ (rec : RecordData) (ic : InsertCompound), processRecordFormat rec = .ok ic →
        ic.chemicalClass =
          (if (deriveChemicalClasses ic.formula).length > 0
           then some (deriveChemicalClasses ic.formula) else none))
    ∧ (∀ (d : RawInput) (ic : InsertCompound), validateCompound d = .ok ic →
        ic.chemicalClass = d.chemicalClass)
    ∧ deriveChemicalClasses (some "C6H12O6") =
        ["Organic compounds", "Oxygen-containing compounds"]
    ∧ deriveChemicalClasses (some "NaCl") = ["Inorganic compounds"] :=
  ⟨fun _ _ h => processPCCompound_ok_chemicalClass h,
   fun _ _ h => processRecordFormat_ok_chemicalClass h,
   fun _ _ h => validateCompound_ok_chemicalClass h, rfl, rfl⟩

/-- C7 witness: the amended theorem evaluated on the NaCl PC_Compounds
record (derivation applied) and the direct glucose record (passed through). -/
theorem c7_class_derivation_witness :
    pcNaClNormalized.chemicalClass =
      (if (deriveChemicalClasses pcNaClNormalized.formula).length > 0
       then some (deriveChemicalClasses pcNaClNormalized.formula) else none)
    ∧ glucoseNormalized.chemicalClass = glucoseRaw.chemicalClass := by
  constructor
  · exact c7_class_derivation.1 pcNaCl pcNaClNormalized rfl
  · exact c7_class_derivation.2.2.1 glucoseRaw glucoseNormalized rfl

/-- C8 counterexample: a PC_Compounds record with synonym groups
["A","B"] and ["C","D"] normalizes to name "A" but synonyms ["C","D"] — the
synonyms field holds the LAST group's list, not the first group's full list
as claimed. -/
theorem c8_counterexample :
    (processPCCompound pcTwoGroups).map (fun ic => (ic.name, ic.synonyms)) =
      .ok ("A", some ["C", "D"]) := by
  rfl

/-- C8 (amended): the name is the first synonym of the first non-empty group
(shown here for a non-blank first synonym), as claimed; but the synonyms
field is overwritten by every group carrying a list, so it ends up holding
the LAST such group's list — equal to the first group's list only when a
single group carries one. -/
theorem c8_synonyms_last_group :
    (∀ (c : PCCompound) (ic : InsertCompound) (gs : List SynGroup),
        c.synonyms = some gs → processPCCompound c = .ok ic →
        ic.synonyms = gs.foldl (fun acc g =>
          match g.synonym with
          | some l => some l
          | none => acc) none)
    ∧ (∀ (c : PCCompound) (ic : InsertCompound) (s : String) (rest : List String)
          (gs' : List SynGroup),
        c.synonyms = some ({ synonym := some (s :: rest) } :: gs') → s ≠ "" →
        processPCCompound c = .ok ic → ic.name = s) :=
  ⟨fun _ _ _ hsyn h => processPCCompound_ok_synonyms hsyn h,
   fun _ _ _ _ _ hsyn hs h => processPCCompound_ok_name hsyn hs h⟩

/-- C8 witness: the amended theorem evaluated on the two-group fixture. -/
theorem c8_synonyms_last_group_witness :
    pcTwoGroupsNormalized.synonyms = some ["C", "D"]
    ∧ pcTwoGroupsNormalized.name = "A" := by
  constructor
  · exact (c8_synonyms_last_group.1 pcTwoGroups pcTwoGroupsNormalized
      [{ synonym := some ["A", "B"] }, { synonym := some ["C", "D"] }] rfl rfl).trans rfl
  · exact c8_synonyms_last_group.2 pcTwoGroups pcTwoGroupsNormalized "A" ["B"]
      [{ synonym := some ["C", "D"] }] rfl (by decide) rfl

/-- C9: evaluation at the failing input. With 25 matching compounds and
limit 10, the Weaviate semantic path reports totalResults 10 (the size of
the page it fetched — its own comment admits "This is not accurate") and
totalPages 1, while the claim requires 25 and 3; the keyword path over the
same 25 rows does satisfy the claim: totalResults 25, totalPages 3, and
page 3 holding exactly 5 results. -/
theorem c9_pagination_eval :
    (weaviateSemanticSearch ranked25 "acid" 10 0 "relevance").totalResults = 10
    ∧ (weaviateSemanticSearch ranked25 "acid" 10 0 "relevance").totalPages = 1
    ∧ (keywordSearchCore compounds25 acidPage3).totalResults = 25
    ∧ (keywordSearchCore compounds25 acidPage3).totalPages = 3
    ∧ (keywordSearchCore compounds25 acidPage3).results.length = 5 :=
  ⟨rfl, rfl, rfl, rfl, rfl⟩

/-- C10: when the molecular weight is absent or zero, the in-memory weight
filter returns false for every non-empty bucket value — including lt_100 —
because it rejects a falsy weight before inspecting the bucket. -/
theorem c10_absent_weight_excluded :
    ∀ (c : Compound) (f : String),
      (c.molecularWeight = none ∨ c.molecularWeight = some 0) →
      (f = "lt_100" ∨ f = "100-200" ∨ f = "200-500" ∨ f = "gt_500") →
      filterByMolecularWeight c f = false := by
  intro c f hmw _
  rcases hmw with h | h <;> simp [filterByMolecularWeight, h, jsTruthyNum]

/-- C10 witness: the theorem evaluated at a weightless compound and at a
compound with weight 0, in the lt_100 bucket. -/
theorem c10_absent_weight_excluded_witness :
    filterByMolecularWeight { id := 1, cid := 1, name := "x" } "lt_100" = false
    ∧ filterByMolecularWeight
        { id := 2, cid := 2, name := "y", molecularWeight := some 0 } "lt_100" = false := by
  constructor
  · exact c10_absent_weight_excluded _ "lt_100" (Or.inl rfl) (Or.inl rfl)
  · exact c10_absent_weight_excluded _ "lt_100" (Or.inr rfl) (Or.inl rfl)

end ChemBase
